import Mathlib

/-!
# go-bookstore-mysql-api: a shallow embedding of the Book CRUD service

The development follows the three source packages:

* `pkg/models/book.go`       : the `Book` record and the entity operations,
* `pkg/utils/utils.go`       : `ParseBody`,
* `pkg/controllers/book-controller.go` : the five HTTP handlers.

The program is stateful only through the database handle, so every operation
is written in state-passing style over a value `DB`.  The third-party
libraries the source calls (gorm v1, `encoding/json`, `strconv`) are given by
the small executable models of the first sections.

Assumptions of the library models:

* `strconv` is that of Go 1.13 or later (base prefixes and underscores for
  base 0) and `int` has 64 bits;
* the server runs in strict SQL mode, so a value is stored as given or the
  statement fails; a statement may fail for any reason, which the fault
  script of `DB` stands for;
* one request is handled at a time.
-/

set_option autoImplicit false

deriving instance DecidableEq for Except

/-! ## strconv.ParseInt(s, 0, 0) -/

namespace strconv

/-- The two error kinds of a `*strconv.NumError`. -/
inductive NumError where
  | ErrSyntax
  | ErrRange
  deriving DecidableEq, Repr

/-- Go `lower(c)` of strconv: `c | ('x' - 'X')`, on a byte value. -/
def lower (c : Nat) : Nat := c ||| 0x20

/-- Go `IntSize` on a 64-bit platform. -/
def IntSize : Nat := 64

/-- Go `maxUint64`. -/
def maxUint64 : Nat := 2 ^ 64 - 1

/-- The digit loop of `ParseUint`: `n` is the accumulator, `cs` the bytes not
yet read.  `base0` says whether underscores are skipped.  The result is the
accumulated value or the error the loop returns early with. -/
def digitLoop (base : Nat) (base0 : Bool) (maxVal : Nat) : List Nat → Nat → Except NumError Nat
  | [], n => .ok n
  | c :: cs, n =>
    if c = 95 ∧ base0 = true then digitLoop base base0 maxVal cs n
    else
      let d : Option Nat :=
        if 48 ≤ c ∧ c ≤ 57 then some (c - 48)
        else if 97 ≤ lower c ∧ lower c ≤ 122 then some (lower c - 97 + 10)
        else none
      match d with
      | none => .error .ErrSyntax
      | some d =>
        if d ≥ base then .error .ErrSyntax
        else if n ≥ maxUint64 / base + 1 then .error .ErrRange
        else
          let n1 := n * base + d
          if n1 > maxVal then .error .ErrRange
          else digitLoop base base0 maxVal cs n1

/-- The scan of `underscoreOK`: `saw` is 0 for the start of the number, 1 for a
digit or base prefix, 2 for an underscore, 3 for anything else. -/
def underscoreScan (hex : Bool) : List Nat → Nat → Bool
  | [], saw => saw ≠ 2
  | c :: cs, saw =>
    if (48 ≤ c ∧ c ≤ 57) ∨ (hex = true ∧ 97 ≤ lower c ∧ lower c ≤ 102) then underscoreScan hex cs 1
    else if c = 95 then
      if saw ≠ 1 then false else underscoreScan hex cs 2
    else if saw = 2 then false
    else underscoreScan hex cs 3

/-- Go `underscoreOK(s)`: underscores only separate digits. -/
def underscoreOK (s : List Nat) : Bool :=
  let s := match s with
    | c :: cs => if c = 45 ∨ c = 43 then cs else s
    | [] => s
  match s with
  | 48 :: c :: cs =>
    if lower c = 98 ∨ lower c = 111 ∨ lower c = 120 then
      underscoreScan (lower c = 120) cs 1
    else underscoreScan false s 0
  | _ => underscoreScan false s 0

/-- Go `ParseUint(s, 0, 0)` on the bytes of `s`. -/
def ParseUint (s : List Nat) : Except NumError Nat :=
  match s with
  | [] => .error .ErrSyntax
  | c0 :: rest =>
    let pick : Nat × List Nat :=
      if c0 = 48 then
        match rest with
        | c1 :: c2 :: cs =>
          if lower c1 = 98 then (2, c2 :: cs)
          else if lower c1 = 111 then (8, c2 :: cs)
          else if lower c1 = 120 then (16, c2 :: cs)
          else (8, rest)
        | _ => (8, rest)
      else (10, s)
    let maxVal := 2 ^ IntSize - 1
    match digitLoop pick.1 true maxVal pick.2 0 with
    | .error e => .error e
    | .ok n =>
      if pick.2.contains 95 ∧ underscoreOK s = false then .error .ErrSyntax
      else .ok n

/-- Go `ParseInt(s, 0, 0)` on the bytes of `s`: the value, or the error kind.
When `ParseUint` reports a range error the Go code goes on with `un = maxVal`,
which the cutoff tests below it reject with the same `ErrRange`; the first
match arm returns that error directly. -/
def ParseIntBytes (s : List Nat) : Except NumError Int :=
  match s with
  | [] => .error .ErrSyntax
  | c0 :: rest =>
    let neg : Bool := c0 = 45
    let s1 := if c0 = 43 ∨ c0 = 45 then rest else s
    match ParseUint s1 with
    | .error e => .error e
    | .ok un =>
      let cutoff := 2 ^ (IntSize - 1)
      if neg = false ∧ un ≥ cutoff then .error .ErrRange
      else if neg = true ∧ un > cutoff then .error .ErrRange
      else if neg then .ok (-(un : Int)) else .ok (un : Int)

/-- Go `strconv.ParseInt(s, 0, 0)`. -/
def ParseInt (s : String) : Except NumError Int :=
  ParseIntBytes (s.toList.map Char.toNat)

end strconv

/-! ## Data model (pkg/models/book.go) -/

/-- A `time.Time`, as an instant; `0` is the zero value. -/
abbrev Time := Nat

/-- The `Book` struct with the fields of the embedded `gorm.Model`
(`ID uint`, `CreatedAt`, `UpdatedAt`, `DeletedAt *time.Time`) written out. -/
structure Book where
  ID : Nat
  CreatedAt : Time
  UpdatedAt : Time
  DeletedAt : Option Time
  Name : String
  Author : String
  Publication : String
  deriving DecidableEq, Repr

/-- The zero value of `Book` (`var book models.Book`). -/
def Book.zero : Book :=
  { ID := 0, CreatedAt := 0, UpdatedAt := 0, DeletedAt := none,
    Name := "", Author := "", Publication := "" }

/-- Go `error` values that occur in the program. -/
inductive Err where
  /-- The error of `ioutil.ReadAll`. -/
  | readBody
  /-- The body is not a JSON text. -/
  | jsonSyntax
  /-- A JSON value does not fit the Go type it is decoded into. -/
  | jsonType
  /-- The value `gorm.ErrRecordNotFound`. -/
  | ErrRecordNotFound
  /-- An error made by `errors.New(msg)`. -/
  | new (msg : String)
  /-- A statement failed at the driver or the server (connection, query). -/
  | driver
  /-- The server refused an insert: the primary key is taken. -/
  | duplicateKey
  deriving DecidableEq, Repr

/-- The method `err.Error()`. -/
def Err.Error : Err → String
  | .readBody => "unexpected EOF"
  | .jsonSyntax => "invalid character"
  | .jsonType => "json: cannot unmarshal value"
  | .ErrRecordNotFound => "record not found"
  | .new msg => msg
  | .driver => "driver: bad connection"
  | .duplicateKey => "Error 1062: Duplicate entry"

/-! ## encoding/json, as far as `Unmarshal` into a `Book` goes -/

namespace json

/-- The JSON value of one member of the top-level object. -/
inductive Value where
  | null
  | bool (b : Bool)
  /-- A number literal without fraction or exponent. -/
  | int (i : Int)
  /-- Any other number literal. -/
  | float
  /-- A string; `ts` is the instant it denotes when its text is an RFC 3339
  timestamp (what `time.Time.UnmarshalJSON` accepts). -/
  | str (s : String) (ts : Option Time)
  /-- An array or an object. -/
  | composite
  deriving DecidableEq, Repr

/-- The text of a request body, as `Unmarshal` meets it. -/
inductive Text where
  /-- The bytes are not a JSON text. -/
  | invalid
  /-- The JSON text `null`. -/
  | null
  /-- A JSON text that is neither `null` nor an object. -/
  | nonObject
  /-- A JSON object, members in the order of the text. -/
  | object (members : List (String × Value))
  deriving DecidableEq, Repr

/-- Decoding into a Go `string` field. -/
def setString (v : Value) (old : String) : Except Err String :=
  match v with
  | .null => .ok old
  | .str s _ => .ok s
  | _ => .error .jsonType

/-- Decoding into a Go `uint` field (64 bits). -/
def setUint (v : Value) (old : Nat) : Except Err Nat :=
  match v with
  | .null => .ok old
  | .int i => if 0 ≤ i ∧ i < 2 ^ 64 then .ok i.toNat else .error .jsonType
  | _ => .error .jsonType

/-- Decoding into a `time.Time` field. -/
def setTime (v : Value) (old : Time) : Except Err Time :=
  match v with
  | .null => .ok old
  | .str _ (some t) => .ok t
  | _ => .error .jsonType

/-- Decoding into a `*time.Time` field. -/
def setTimePtr (v : Value) : Except Err (Option Time) :=
  match v with
  | .null => .ok none
  | .str _ (some t) => .ok (some t)
  | _ => .error .jsonType

/-- ASCII case folding of a key (no field name of `Book` has a letter with a
non-ASCII fold). -/
def fold (key : String) : String := String.mk (key.toList.map Char.toLower)

/-- One member of the object: the field whose JSON name equals the key, case
folded, receives the value; a key that names no field is skipped.  The JSON
names are the tags `name`, `author`, `publication` and, for the promoted fields
of `gorm.Model`, the Go names. -/
def setMember (key : String) (v : Value) (b : Book) : Except Err Book :=
  let k := fold key
  if k = "name" then (setString v b.Name).map (fun x => { b with Name := x })
  else if k = "author" then (setString v b.Author).map (fun x => { b with Author := x })
  else if k = "publication" then
    (setString v b.Publication).map (fun x => { b with Publication := x })
  else if k = "id" then (setUint v b.ID).map (fun x => { b with ID := x })
  else if k = "createdat" then (setTime v b.CreatedAt).map (fun x => { b with CreatedAt := x })
  else if k = "updatedat" then (setTime v b.UpdatedAt).map (fun x => { b with UpdatedAt := x })
  else if k = "deletedat" then (setTimePtr v).map (fun x => { b with DeletedAt := x })
  else .ok b

/-- The members of an object, decoded in order into `b`. -/
def setMembers : List (String × Value) → Book → Except Err Book
  | [], b => .ok b
  | (k, v) :: rest, b =>
    match setMember k v b with
    | .error e => .error e
    | .ok b1 => setMembers rest b1

/-- Go `json.Unmarshal(body, &book)`: the decoded book, or the error.  (After a
type error Go keeps decoding and returns the first error at the end; the
callers drop the book in that case.) -/
def Unmarshal (body : Text) (b : Book) : Except Err Book :=
  match body with
  | .invalid => .error .jsonSyntax
  | .null => .ok b
  | .nonObject => .error .jsonType
  | .object ms => setMembers ms b

end json

/-! ## The database behind gorm -/

/-- The statements the program sends to the server. -/
inductive Stmt where
  | insert (b : Book)
  | selectAll
  /-- The lookup `Where("id = ?", Id).First(..)`. -/
  | selectById (Id : Int)
  /-- The lookup by primary key inside `Save`. -/
  | selectByKey (ID : Nat)
  | update (b : Book)
  /-- The soft delete of the rows with this key (all rows for key 0). -/
  | softDelete (ID : Nat)
  deriving DecidableEq, Repr

/-- The state behind the handle `*gorm.DB`: the rows of table `books` (soft
deleted ones included), the AUTO_INCREMENT counter, the clock read by
`NowFunc`, a script saying which of the coming statements fail at the driver
(`true` fails; an empty script means none does), and the log of the
statements sent so far. -/
structure DB where
  rows : List Book
  nextId : Nat
  clock : Time
  faults : List Bool
  log : List Stmt
  deriving DecidableEq, Repr

/-- A freshly migrated, empty database. -/
def DB.empty : DB :=
  { rows := [], nextId := 1, clock := 1, faults := [], log := [] }

/-- Whether the next statement fails at the driver. -/
def DB.fails (db : DB) : Bool := db.faults.headD false

/-- Sending one statement: it is logged and uses up one entry of the script. -/
def DB.step (s : Stmt) (db : DB) : DB :=
  { db with faults := db.faults.tail, log := db.log ++ [s] }

/-- A row that the default scope `deleted_at IS NULL` keeps. -/
def live (b : Book) : Bool := b.DeletedAt.isNone

/-- Well-formed tables: the counter is positive, every key is positive and
below the counter, and no key occurs twice.  The empty database is so and the
operations keep it so. -/
def DB.WF (db : DB) : Prop :=
  1 ≤ db.nextId ∧ (∀ b ∈ db.rows, 0 < b.ID ∧ b.ID < db.nextId) ∧ (db.rows.map Book.ID).Nodup

instance (db : DB) : Decidable db.WF := by
  unfold DB.WF
  infer_instance

/-! ## gorm v1, for the model `Book` -/

namespace gorm

/-- Go `db.Create(&b)`: the create callbacks fill blank timestamps, then one
INSERT is sent.  A blank primary key is left to AUTO_INCREMENT; a non-blank
one is inserted as given and must be free.  The result is the record with its
key, or the error. -/
def Create (b : Book) (db : DB) : Except Err Book × DB :=
  let b1 : Book :=
    { b with CreatedAt := if b.CreatedAt = 0 then db.clock else b.CreatedAt,
             UpdatedAt := if b.UpdatedAt = 0 then db.clock else b.UpdatedAt }
  let db1 := db.step (.insert b1)
  let key := if b1.ID = 0 then db.nextId else b1.ID
  if db.fails then (.error .driver, db1)
  else if db.rows.any (fun r => r.ID == key) then (.error .duplicateKey, db1)
  else
    let b2 : Book := { b1 with ID := key }
    (.ok b2, { db1 with rows := db.rows ++ [b2], nextId := max db.nextId (key + 1) })

/-- Go `db.Find(&books)`: every row of the default scope. -/
def Find (db : DB) : Except Err (List Book) × DB :=
  let db1 := db.step .selectAll
  if db.fails then (.error .driver, db1)
  else (.ok (db.rows.filter live), db1)

/-- Go `db.Where("id = ?", Id).First(&book)` into a zero `book`: the first row of
the default scope whose id equals `Id`, or `ErrRecordNotFound`. -/
def First (Id : Int) (db : DB) : Except Err Book × DB :=
  let db1 := db.step (.selectById Id)
  if db.fails then (.error .driver, db1)
  else
    match db.rows.find? (fun r => live r && ((r.ID : Int) == Id)) with
    | some r => (.ok r, db1)
    | none => (.error .ErrRecordNotFound, db1)

/-- Go `db.Delete(&book)`: `Book` has a `DeletedAt` column, so the rows of
the default scope with the key of `book` get `deleted_at = now`; with a blank
key the statement has no key condition.  No matching row is not an error. -/
def Delete (b : Book) (db : DB) : Option Err × DB :=
  let db1 := db.step (.softDelete b.ID)
  if db.fails then (some .driver, db1)
  else
    (none, { db1 with rows := db.rows.map (fun r =>
      if live r && (b.ID == 0 || r.ID == b.ID) then { r with DeletedAt := some db.clock }
      else r) })

/-- Go `db.Save(&b)`: with a blank key this is `Create`.  Otherwise `UpdatedAt` is
set and one UPDATE of all columns is sent for the row of the default scope
with that key; when no row was affected gorm falls back to `FirstOrCreate`
(a lookup by key, then the create callbacks). -/
def Save (b : Book) (db : DB) : Except Err Book × DB :=
  if b.ID = 0 then Create b db
  else
    let b1 : Book := { b with UpdatedAt := db.clock }
    let db1 := db.step (.update b1)
    if db.fails then (.error .driver, db1)
    else if db.rows.any (fun r => live r && r.ID == b1.ID) then
      (.ok b1, { db1 with rows := db.rows.map (fun r =>
        if live r && r.ID == b1.ID then b1 else r) })
    else
      let db2 := db1.step (.selectByKey b1.ID)
      if db1.fails then (.error .driver, db2)
      else
        match db1.rows.find? (fun r => live r && r.ID == b1.ID) with
        | some r => (.ok r, db2)
        | none => Create b1 db2

end gorm

/-! ## pkg/config -/

namespace config

/-- Modelled from the spec: `config.GetDB` (package `pkg/config` is not among
the sources) "returns the shared connection handle; process-wide singleton",
the one `models` stored in its variable `db`. -/
def GetDB (db : DB) : DB := db

end config

/-! ## pkg/models/book.go -/

namespace models

/-- Go `(b *Book) CreateBook() *Book`: `nil` when the insert fails. -/
def Book.CreateBook (b : Book) (db : DB) : Option Book × DB :=
  match gorm.Create b db with
  | (.error _, db1) => (none, db1)
  | (.ok b1, db1) => (some b1, db1)

/-- Go `GetAllBooks() ([]Book, error)`. -/
def GetAllBooks (db : DB) : Except Err (List Book) × DB :=
  match gorm.Find db with
  | (.error e, db1) => (.error e, db1)
  | (.ok books, db1) => (.ok books, db1)

/-- Go `GetBookById(Id int64) (*Book, error)`. -/
def GetBookById (Id : Int) (db : DB) : Except Err Book × DB :=
  match gorm.First Id db with
  | (.error e, db1) =>
    if e = .ErrRecordNotFound then (.error (.new "book not found"), db1)
    else (.error e, db1)
  | (.ok book, db1) => (.ok book, db1)

/-- Go `DeleteBook(Id int64) (*Book, error)`. -/
def DeleteBook (Id : Int) (db : DB) : Except Err Book × DB :=
  match gorm.First Id db with
  | (.error e, db1) =>
    if e = .ErrRecordNotFound then (.error (.new "book not found"), db1)
    else (.error e, db1)
  | (.ok book, db1) =>
    match gorm.Delete book db1 with
    | (some err, db2) => (.error err, db2)
    | (none, db2) => (.ok book, db2)

end models

/-! ## HTTP requests and responses -/

/-- What the handlers read of a `*http.Request`: the route variable
`mux.Vars(r)["bookId"]` (empty when the route has none) and the body, `none`
when reading it fails. -/
structure Request where
  bookId : String
  Body : Option json.Text
  deriving DecidableEq, Repr

/-- What a handler writes after the status: the message of `http.Error`, or
the value given to `json.Marshal`. -/
inductive Payload where
  | message (msg : String)
  | book (b : Book)
  | books (bs : List Book)
  deriving DecidableEq, Repr

/-- The response: status code and payload. -/
structure Response where
  status : Nat
  payload : Payload
  deriving DecidableEq, Repr

/-- Go `http.Error(w, msg, code)`. -/
def http.Error (msg : String) (code : Nat) : Response := { status := code, payload := .message msg }

/-! ## pkg/utils/utils.go -/

namespace utils

/-- Go `ParseBody(r, &x)` for `x` a `Book`: the filled book, or the error. -/
def ParseBody (r : Request) (x : Book) : Except Err Book :=
  match r.Body with
  | none => .error .readBody
  | some body => json.Unmarshal body x

end utils

/-! ## pkg/controllers/book-controller.go -/

namespace controllers

/-- Handler `GetBook`: the list of all books. -/
def GetBook (_r : Request) (db : DB) : Response × DB :=
  match models.GetAllBooks db with
  | (.error _, db1) => (http.Error "Failed to retrieve books" 500, db1)
  | (.ok books, db1) => ({ status := 200, payload := .books books }, db1)

/-- Handler `GetBookById`. -/
def GetBookById (r : Request) (db : DB) : Response × DB :=
  match strconv.ParseInt r.bookId with
  | .error _ => (http.Error "Invalid book ID" 400, db)
  | .ok ID =>
    match models.GetBookById ID db with
    | (.error _, db1) => (http.Error "Book not found" 404, db1)
    | (.ok bookDetails, db1) => ({ status := 200, payload := .book bookDetails }, db1)

/-- Handler `CreateBook`. -/
def CreateBook (r : Request) (db : DB) : Response × DB :=
  match utils.ParseBody r Book.zero with
  | .error _ => (http.Error "Invalid request payload" 400, db)
  | .ok book =>
    match models.Book.CreateBook book db with
    | (none, db1) => (http.Error "Failed to create book" 500, db1)
    | (some createdBook, db1) => ({ status := 201, payload := .book createdBook }, db1)

/-- Handler `DeleteBook`. -/
def DeleteBook (r : Request) (db : DB) : Response × DB :=
  match strconv.ParseInt r.bookId with
  | .error _ => (http.Error "Invalid book ID" 400, db)
  | .ok ID =>
    match models.DeleteBook ID db with
    | (.error err, db1) => (http.Error err.Error 404, db1)
    | (.ok deletedBook, db1) => ({ status := 200, payload := .book deletedBook }, db1)

/-- The three assignments of `UpdateBook` (lines 152 to 161). -/
def mergeFields (updateBook bookDetails : Book) : Book :=
  let b1 := if updateBook.Name ≠ "" then { bookDetails with Name := updateBook.Name } else bookDetails
  let b2 := if updateBook.Author ≠ "" then { b1 with Author := updateBook.Author } else b1
  if updateBook.Publication ≠ "" then { b2 with Publication := updateBook.Publication } else b2

/-- Handler `UpdateBook`. -/
def UpdateBook (r : Request) (db : DB) : Response × DB :=
  match utils.ParseBody r Book.zero with
  | .error _ => (http.Error "Invalid request payload" 400, db)
  | .ok updateBook =>
    match strconv.ParseInt r.bookId with
    | .error _ => (http.Error "Invalid book ID" 400, db)
    | .ok ID =>
      match models.GetBookById ID db with
      | (.error _, db1) => (http.Error "Book not found" 404, db1)
      | (.ok bookDetails, db1) =>
        match gorm.Save (mergeFields updateBook bookDetails) (config.GetDB db1) with
        | (.error _, db2) => (http.Error "Failed to update book" 500, db2)
        | (.ok saved, db2) => ({ status := 200, payload := .book saved }, db2)

end controllers

/-! ## Example states and requests -/

namespace Example

/-- The book of the example of the specification. -/
def dune : Book :=
  { ID := 1, CreatedAt := 5, UpdatedAt := 5, DeletedAt := none,
    Name := "Dune", Author := "Herbert", Publication := "Chilton" }

/-- A table that holds `dune` only. -/
def db1 : DB := { rows := [dune], nextId := 2, clock := 9, faults := [], log := [] }

/-- A second book. -/
def emma : Book :=
  { ID := 2, CreatedAt := 6, UpdatedAt := 6, DeletedAt := none,
    Name := "Emma", Author := "Austen", Publication := "Murray" }

/-- A table of two books. -/
def db2 : DB := { rows := [dune, emma], nextId := 3, clock := 9, faults := [], log := [] }

/-- The same table when the next statement fails at the driver. -/
def db1Down : DB := { db1 with faults := [true] }

/-- A PUT of a new name for book 1. -/
def putName : Request :=
  { bookId := "1", Body := some (.object [("name", .str "Dune Messiah" none)]) }

/-- A PUT for book 1 whose payload carries an identifier of its own. -/
def putWithId : Request :=
  { bookId := "1",
    Body := some (.object [("ID", .int 99), ("name", .str "Dune Messiah" none)]) }

/-- The POST of the example of the specification. -/
def postDune : Request :=
  { bookId := "",
    Body := some (.object [("name", .str "Dune" none), ("author", .str "Herbert" none),
      ("publication", .str "Chilton" none)]) }

/-- The same POST with an identifier chosen by the client. -/
def postDuneWithId : Request :=
  { bookId := "",
    Body := some (.object [("id", .int 7), ("name", .str "Dune" none),
      ("author", .str "Herbert" none), ("publication", .str "Chilton" none)]) }

/-- The same POST with a creation time chosen by the client. -/
def postDuneDated : Request :=
  { bookId := "",
    Body := some (.object [("name", .str "Dune" none), ("author", .str "Herbert" none),
      ("publication", .str "Chilton" none),
      ("CreatedAt", .str "1965-08-01T00:00:00Z" (some 4))]) }

end Example

/-! ## Basic facts about the database model -/

@[simp] theorem DB.step_rows (s : Stmt) (db : DB) : (db.step s).rows = db.rows := rfl

@[simp] theorem DB.step_nextId (s : Stmt) (db : DB) : (db.step s).nextId = db.nextId := rfl

@[simp] theorem DB.step_clock (s : Stmt) (db : DB) : (db.step s).clock = db.clock := rfl

@[simp] theorem DB.step_log (s : Stmt) (db : DB) : (db.step s).log = db.log ++ [s] := rfl

@[simp] theorem config.GetDB_eq (db : DB) : config.GetDB db = db := rfl

/-- What `gorm.Create` does to the record and the rows. -/
theorem gorm.Create_spec (b : Book) (db : DB) :
    (∀ s, (gorm.Create b db).1 = .ok s →
      s.Name = b.Name ∧ s.Author = b.Author ∧ s.Publication = b.Publication ∧
      s.DeletedAt = b.DeletedAt ∧
      s.ID = (if b.ID = 0 then db.nextId else b.ID) ∧
      (∀ r ∈ db.rows, r.ID ≠ s.ID) ∧
      (gorm.Create b db).2.rows = db.rows ++ [s] ∧
      (gorm.Create b db).2.nextId = max db.nextId (s.ID + 1)) ∧
    (∀ e, (gorm.Create b db).1 = .error e →
      (gorm.Create b db).2.rows = db.rows ∧ (gorm.Create b db).2.nextId = db.nextId) := by
  unfold gorm.Create
  by_cases hf : db.fails = true
  · simp [hf]
  · by_cases hd : (db.rows.any fun r => r.ID == if b.ID = 0 then db.nextId else b.ID) = true
    · simp [hf, hd]
    · simp only [hf, hd]
      simp
      simpa using hd

/-- The lookup `gorm.First` never changes rows, counter or clock, and logs
exactly its statement. -/
theorem gorm.First_state (Id : Int) (db : DB) :
    (gorm.First Id db).2 = db.step (.selectById Id) := by
  unfold gorm.First
  by_cases hf : db.fails = true
  · simp [hf]
  · simp only [hf]
    cases db.rows.find? (fun r => live r && ((r.ID : Int) == Id)) <;> simp

/-- The result of `gorm.First` as a function of the fault script and the rows. -/
theorem gorm.First_result (Id : Int) (db : DB) :
    (gorm.First Id db).1 =
      if db.fails then .error .driver
      else match db.rows.find? (fun r => live r && ((r.ID : Int) == Id)) with
        | some r => .ok r
        | none => .error .ErrRecordNotFound := by
  unfold gorm.First
  by_cases hf : db.fails = true
  · simp [hf]
  · simp only [hf]
    cases db.rows.find? (fun r => live r && ((r.ID : Int) == Id)) <;> simp

/-- A record returned by `gorm.First` is a live row with the id asked for. -/
theorem gorm.First_ok (Id : Int) (db : DB) (b : Book) (h : (gorm.First Id db).1 = .ok b) :
    b ∈ db.rows ∧ live b = true ∧ (b.ID : Int) = Id ∧ db.fails = false := by
  rw [gorm.First_result] at h
  by_cases hf : db.fails = true
  · simp [hf] at h
  · simp only [hf] at h
    cases hfind : db.rows.find? (fun r => live r && ((r.ID : Int) == Id)) with
    | none => simp [hfind] at h
    | some r =>
      simp [hfind] at h
      subst h
      have hp := List.find?_some hfind
      have hm := List.mem_of_find?_eq_some hfind
      simp at hp
      exact ⟨hm, hp.1, hp.2, by simpa using hf⟩

/-- What `gorm.Save` does to the record and the rows. -/
theorem gorm.Save_spec (b : Book) (db : DB) :
    (∀ s, (gorm.Save b db).1 = .ok s →
      s.Name = b.Name ∧ s.Author = b.Author ∧ s.Publication = b.Publication ∧
      s ∈ (gorm.Save b db).2.rows ∧ (b.ID ≠ 0 → s.ID = b.ID)) ∧
    (∀ e, (gorm.Save b db).1 = .error e → (gorm.Save b db).2.rows = db.rows) := by
  unfold gorm.Save
  by_cases h0 : b.ID = 0
  · simp only [h0, if_true]
    have hc := gorm.Create_spec b db
    refine ⟨fun s hs => ?_, fun e he => (hc.2 e he).1⟩
    obtain ⟨h1, h2, h3, _, _, _, h7, _⟩ := hc.1 s hs
    refine ⟨h1, h2, h3, ?_, fun h => absurd rfl h⟩
    rw [h7]; simp
  · simp only [h0, if_false]
    by_cases hf : db.fails = true
    · simp [hf]
    · simp only [hf]
      by_cases ha : (db.rows.any fun r => live r && r.ID == b.ID) = true
      · simp only [ha, if_true]
        simp
        simp at ha
        obtain ⟨r, hr, hl, hid⟩ := ha
        exact ⟨r, hr, by simp [hl, hid]⟩
      · simp only [ha]
        simp only [Bool.false_eq_true, if_false]
        by_cases hf1 : (db.step (.update { b with UpdatedAt := db.clock })).fails = true
        · simp [hf1]
        · simp only [hf1]
          have hnone : db.rows.find? (fun r => live r && r.ID == b.ID) = none := by
            rw [List.find?_eq_none]
            intro x hx hp
            exact ha (List.any_eq_true.mpr ⟨x, hx, hp⟩)
          simp only [DB.step_rows, hnone, Bool.false_eq_true, if_false]
          have hc := gorm.Create_spec { b with UpdatedAt := db.clock }
            ((db.step (.update { b with UpdatedAt := db.clock })).step (.selectByKey b.ID))
          refine ⟨fun s hs => ?_, fun e he => ?_⟩
          · obtain ⟨h1, h2, h3, _, h5, _, h7, _⟩ := hc.1 s hs
            refine ⟨h1, h2, h3, ?_, fun _ => ?_⟩
            · rw [h7]; simp
            · simpa [h0] using h5
          · simpa using (hc.2 e he).1

/-- The entity lookup sends exactly one statement and changes nothing else. -/
theorem models.GetBookById_state (Id : Int) (db : DB) :
    (models.GetBookById Id db).2 = db.step (.selectById Id) := by
  have h := gorm.First_state Id db
  unfold models.GetBookById
  rcases hr : gorm.First Id db with ⟨res, db1⟩
  rw [hr] at h
  simp only at h
  subst h
  cases res with
  | error e => by_cases he : e = .ErrRecordNotFound <;> simp [he]
  | ok b => simp

/-- The result of the entity lookup in terms of `gorm.First`. -/
theorem models.GetBookById_result (Id : Int) (db : DB) :
    (models.GetBookById Id db).1 =
      match (gorm.First Id db).1 with
      | .ok b => .ok b
      | .error e => if e = .ErrRecordNotFound then .error (.new "book not found") else .error e := by
  unfold models.GetBookById
  rcases gorm.First Id db with ⟨res, db1⟩
  cases res with
  | error e => by_cases he : e = .ErrRecordNotFound <;> simp [he]
  | ok b => simp

/-- A record returned by the entity lookup is a live row with the id asked
for, and the statement did not fail. -/
theorem models.GetBookById_ok (Id : Int) (db : DB) (b : Book)
    (h : (models.GetBookById Id db).1 = .ok b) :
    b ∈ db.rows ∧ live b = true ∧ (b.ID : Int) = Id ∧ db.fails = false := by
  rw [models.GetBookById_result] at h
  apply gorm.First_ok
  cases hr : (gorm.First Id db).1 with
  | ok b1 => rw [hr] at h; simpa using h
  | error e =>
    rw [hr] at h
    by_cases he : e = .ErrRecordNotFound <;> simp [he] at h

/-- The merge of `UpdateBook`, field by field. -/
theorem controllers.mergeFields_spec (u c : Book) :
    (controllers.mergeFields u c).Name = (if u.Name ≠ "" then u.Name else c.Name) ∧
    (controllers.mergeFields u c).Author = (if u.Author ≠ "" then u.Author else c.Author) ∧
    (controllers.mergeFields u c).Publication =
      (if u.Publication ≠ "" then u.Publication else c.Publication) ∧
    (controllers.mergeFields u c).ID = c.ID ∧
    (controllers.mergeFields u c).DeletedAt = c.DeletedAt := by
  unfold controllers.mergeFields
  by_cases h1 : u.Name = "" <;> by_cases h2 : u.Author = "" <;>
    by_cases h3 : u.Publication = "" <;> simp [h1, h2, h3]

/-- C2, counterexample. Book 1 is in the table and the lookup fails at the
driver: the entity operation returns the driver error, which is not the
not-found error, and the get-one handler answers 404, not 500. -/
theorem C2_counterexample :
    (models.GetBookById 1 Example.db1Down).1 = .error .driver ∧
    Err.driver ≠ Err.new "book not found" ∧
    (∃ b ∈ Example.db1Down.rows, live b = true ∧ (b.ID : Int) = 1) ∧
    (controllers.GetBookById { bookId := "1", Body := none } Example.db1Down).1.status = 404 := by
  decide

/-- C2, amended. The list handler answers 500 when `GetAllBooks` fails, the
create handler 500 when the insert fails, the update handler 500 when the save
fails; the get-one handler, the delete handler and the fetch step of the update
handler answer 404 for every error of the entity operation, whatever the
error is, and the get-one handler answers 404 only then. -/
theorem C2_error_status_by_handler :
    (∀ (r : Request) (db : DB) (e : Err),
      (models.GetAllBooks db).1 = .error e → (controllers.GetBook r db).1.status = 500) ∧
    (∀ (r : Request) (db : DB) (book : Book),
      utils.ParseBody r Book.zero = .ok book → (models.Book.CreateBook book db).1 = none →
      (controllers.CreateBook r db).1.status = 500) ∧
    (∀ (r : Request) (db db1 : DB) (payload cur : Book) (ID : Int) (e : Err),
      utils.ParseBody r Book.zero = .ok payload → strconv.ParseInt r.bookId = .ok ID →
      models.GetBookById ID db = (.ok cur, db1) →
      (gorm.Save (controllers.mergeFields payload cur) (config.GetDB db1)).1 = .error e →
      (controllers.UpdateBook r db).1.status = 500) ∧
    (∀ (r : Request) (db : DB) (ID : Int),
      strconv.ParseInt r.bookId = .ok ID →
      ((controllers.GetBookById r db).1.status = 404 ↔
        ∃ e, (models.GetBookById ID db).1 = .error e)) ∧
    (∀ (r : Request) (db : DB) (ID : Int) (e : Err),
      strconv.ParseInt r.bookId = .ok ID → (models.DeleteBook ID db).1 = .error e →
      (controllers.DeleteBook r db).1.status = 404) ∧
    (∀ (r : Request) (db : DB) (payload : Book) (ID : Int) (e : Err),
      utils.ParseBody r Book.zero = .ok payload → strconv.ParseInt r.bookId = .ok ID →
      (models.GetBookById ID db).1 = .error e →
      (controllers.UpdateBook r db).1.status = 404) := by
  refine ⟨?_, ?_, ?_, ?_, ?_, ?_⟩
  · intro r db e h
    unfold controllers.GetBook
    rcases hr : models.GetAllBooks db with ⟨res, db1⟩
    rw [hr] at h
    simp only at h
    subst h
    rfl
  · intro r db book hb h
    unfold controllers.CreateBook
    rcases hr : models.Book.CreateBook book db with ⟨res, db1⟩
    rw [hr] at h
    simp only at h
    subst h
    simp [hb, hr, http.Error]
  · intro r db db1 payload cur ID e hb hid hget h
    unfold controllers.UpdateBook
    rcases hr : gorm.Save (controllers.mergeFields payload cur) (config.GetDB db1) with ⟨res, db2⟩
    rw [hr] at h
    simp only at h
    subst h
    rw [config.GetDB_eq] at hr
    simp [hb, hid, hget, hr, http.Error]
  · intro r db ID hid
    unfold controllers.GetBookById
    rcases hr : models.GetBookById ID db with ⟨res, db1⟩
    cases res with
    | error e => simp [hid, hr, http.Error]
    | ok b => simp [hid, hr]
  · intro r db ID e hid h
    unfold controllers.DeleteBook
    rcases hr : models.DeleteBook ID db with ⟨res, db1⟩
    rw [hr] at h
    simp only at h
    subst h
    simp [hid, hr, http.Error]
  · intro r db payload ID e hb hid h
    unfold controllers.UpdateBook
    rcases hr : models.GetBookById ID db with ⟨res, db1⟩
    rw [hr] at h
    simp only at h
    subst h
    simp [hb, hid, hr, http.Error]

/-- C2, amended, at examples: with the driver down the list handler answers
500 and the delete handler 404. -/
theorem C2_error_status_by_handler_witness :
    (controllers.GetBook { bookId := "", Body := none } Example.db1Down).1.status = 500 ∧
    (controllers.DeleteBook { bookId := "1", Body := none } Example.db1Down).1.status = 404 :=
  ⟨C2_error_status_by_handler.1 _ Example.db1Down .driver (by decide),
   C2_error_status_by_handler.2.2.2.2.1 { bookId := "1", Body := none } Example.db1Down 1 .driver
     (by decide) (by decide)⟩

/-! ## Validation of the path id -/

/-- A value accepted by `ParseInt(s, 0, 0)` is a signed 64-bit integer. -/
theorem strconv.ParseInt_range (s : String) (i : Int) (h : strconv.ParseInt s = .ok i) :
    -(2 : Int) ^ 63 ≤ i ∧ i < (2 : Int) ^ 63 := by
  unfold strconv.ParseInt strconv.ParseIntBytes at h
  cases hl : s.toList.map Char.toNat with
  | nil => rw [hl] at h; simp at h
  | cons c0 rest =>
    rw [hl] at h
    simp only at h
    cases hu : strconv.ParseUint (if c0 = 43 ∨ c0 = 45 then rest else c0 :: rest) with
    | error e => rw [hu] at h; simp at h
    | ok un =>
      rw [hu] at h
      simp only [strconv.IntSize] at h
      norm_num at h
      split_ifs at h with h1 h2 h3
      · injection h with h; omega
      · injection h with h; omega

/-- C3. When `ParseInt` rejects the path string `bookId`, the get-one and the
delete handler, and the update handler once its body is parsed, answer 400 and
leave the database value as it was: no row changes and no statement is sent.
The empty string, an alphabetic string and a number beyond 64 bits are
rejected. -/
theorem C3_invalid_id_is_400_before_entity_layer :
    (∀ (r : Request) (db : DB) (e : strconv.NumError),
      strconv.ParseInt r.bookId = .error e →
      (controllers.GetBookById r db).1.status = 400 ∧ (controllers.GetBookById r db).2 = db ∧
      (controllers.DeleteBook r db).1.status = 400 ∧ (controllers.DeleteBook r db).2 = db ∧
      (∀ payload, utils.ParseBody r Book.zero = .ok payload →
        (controllers.UpdateBook r db).1.status = 400 ∧ (controllers.UpdateBook r db).2 = db)) ∧
    strconv.ParseInt "" = .error .ErrSyntax ∧
    strconv.ParseInt "abc" = .error .ErrSyntax ∧
    strconv.ParseInt "12a" = .error .ErrSyntax ∧
    strconv.ParseInt "9223372036854775808" = .error .ErrRange ∧
    strconv.ParseInt "-9223372036854775809" = .error .ErrRange := by
  refine ⟨?_, by decide, by decide, by decide, by decide, by decide⟩
  intro r db e h
  refine ⟨?_, ?_, ?_, ?_, ?_⟩
  · simp [controllers.GetBookById, h, http.Error]
  · simp [controllers.GetBookById, h]
  · simp [controllers.DeleteBook, h, http.Error]
  · simp [controllers.DeleteBook, h]
  · intro payload hp
    simp [controllers.UpdateBook, h, hp, http.Error]

/-- C3 at an example: the path id `abc` on the table holding book 1. -/
theorem C3_invalid_id_is_400_before_entity_layer_witness :
    (controllers.GetBookById { bookId := "abc", Body := none } Example.db1).1.status = 400 ∧
    (controllers.GetBookById { bookId := "abc", Body := none } Example.db1).2 = Example.db1 ∧
    (controllers.DeleteBook { bookId := "abc", Body := none } Example.db1).1.status = 400 ∧
    (controllers.DeleteBook { bookId := "abc", Body := none } Example.db1).2 = Example.db1 :=
  have h := C3_invalid_id_is_400_before_entity_layer.1
    { bookId := "abc", Body := none } Example.db1 .ErrSyntax (by decide)
  ⟨h.1, h.2.1, h.2.2.1, h.2.2.2.1⟩

/-! ## Which ids reach the entity layer -/

/-- The entity delete logs its lookup and, on a hit, the soft delete. -/
theorem models.DeleteBook_log (Id : Int) (db : DB) :
    (models.DeleteBook Id db).2.log = db.log ++ [.selectById Id] ∨
    ∃ k, (models.DeleteBook Id db).2.log = db.log ++ [.selectById Id, .softDelete k] := by
  have h := gorm.First_state Id db
  unfold models.DeleteBook
  rcases hr : gorm.First Id db with ⟨res, db1⟩
  rw [hr] at h
  simp only at h
  subst h
  cases res with
  | error e => by_cases he : e = .ErrRecordNotFound <;> simp [he]
  | ok b =>
    right
    refine ⟨b.ID, ?_⟩
    unfold gorm.Delete
    by_cases hf : (db.step (.selectById Id)).fails = true <;> simp [hf]

/-- The statements `gorm.Create` adds to the log are no lookups by id. -/
theorem gorm.Create_log (b : Book) (db : DB) (i : Int)
    (h : Stmt.selectById i ∈ (gorm.Create b db).2.log) : Stmt.selectById i ∈ db.log := by
  unfold gorm.Create at h
  by_cases hf : db.fails = true
  · simpa [hf] using h
  · by_cases hd : (db.rows.any fun r => r.ID == if b.ID = 0 then db.nextId else b.ID) = true
    · simp only [hf, hd] at h
      simpa using h
    · simp only [hf, hd] at h
      simpa using h

/-- The statements `gorm.Save` adds to the log are no lookups by id. -/
theorem gorm.Save_log (b : Book) (db : DB) (i : Int)
    (h : Stmt.selectById i ∈ (gorm.Save b db).2.log) : Stmt.selectById i ∈ db.log := by
  unfold gorm.Save at h
  by_cases h0 : b.ID = 0
  · simp only [h0, if_true] at h
    exact gorm.Create_log _ _ _ h
  · simp only [h0, if_false] at h
    by_cases hf : db.fails = true
    · simpa [hf] using h
    · simp only [hf] at h
      by_cases ha : (db.rows.any fun r => live r && r.ID == b.ID) = true
      · simp only [ha, if_true] at h
        simpa using h
      · simp only [ha] at h
        simp only [Bool.false_eq_true, if_false] at h
        by_cases hf1 : (db.step (.update { b with UpdatedAt := db.clock })).fails = true
        · simp only [hf1, if_true] at h
          simpa using h
        · simp only [hf1] at h
          cases hfind : (db.step (.update { b with UpdatedAt := db.clock })).rows.find?
              (fun r => live r && r.ID == b.ID) with
          | some r =>
            rw [hfind] at h
            simpa using h
          | none =>
            rw [hfind] at h
            have := gorm.Create_log _ _ _ h
            simpa using this

/-- C4, counterexample. The path strings `-5` and `0` denote no positive
integer, yet `ParseInt` accepts them and the get-one and the delete handler
send the lookup for these ids to the entity operation. -/
theorem C4_counterexample :
    strconv.ParseInt "-5" = .ok (-5) ∧
    (controllers.GetBookById { bookId := "-5", Body := none } DB.empty).2.log =
      [.selectById (-5)] ∧
    (controllers.GetBookById { bookId := "-5", Body := none } DB.empty).1.status = 404 ∧
    strconv.ParseInt "0" = .ok 0 ∧
    (controllers.DeleteBook { bookId := "0", Body := none } DB.empty).2.log =
      [.selectById 0] ∧
    (controllers.DeleteBook { bookId := "0", Body := none } DB.empty).1.status = 404 := by
  decide

/-- C4, amended. Every lookup by id that the get-one, update or delete handler
adds to the statement log carries the value `ParseInt` returned for the path
string, which is a signed 64-bit integer (zero and negative values included);
a path string that `ParseInt` rejects adds no statement at all. -/
theorem C4_entity_layer_gets_parsed_id (r : Request) (db : DB) :
    (∀ i, Stmt.selectById i ∈ (controllers.GetBookById r db).2.log →
      Stmt.selectById i ∈ db.log ∨
        (strconv.ParseInt r.bookId = .ok i ∧ -(2 : Int) ^ 63 ≤ i ∧ i < (2 : Int) ^ 63)) ∧
    (∀ i, Stmt.selectById i ∈ (controllers.DeleteBook r db).2.log →
      Stmt.selectById i ∈ db.log ∨
        (strconv.ParseInt r.bookId = .ok i ∧ -(2 : Int) ^ 63 ≤ i ∧ i < (2 : Int) ^ 63)) ∧
    (∀ i, Stmt.selectById i ∈ (controllers.UpdateBook r db).2.log →
      Stmt.selectById i ∈ db.log ∨
        (strconv.ParseInt r.bookId = .ok i ∧ -(2 : Int) ^ 63 ≤ i ∧ i < (2 : Int) ^ 63)) ∧
    (∀ e, strconv.ParseInt r.bookId = .error e →
      (controllers.GetBookById r db).2.log = db.log ∧
      (controllers.DeleteBook r db).2.log = db.log ∧
      (controllers.UpdateBook r db).2.log = db.log) := by
  refine ⟨?_, ?_, ?_, ?_⟩
  · intro i hi
    cases hp : strconv.ParseInt r.bookId with
    | error e =>
      left
      simpa [controllers.GetBookById, hp] using hi
    | ok ID =>
      have hst := models.GetBookById_state ID db
      unfold controllers.GetBookById at hi
      rw [hp] at hi
      simp only at hi
      rcases hr : models.GetBookById ID db with ⟨res, db1⟩
      rw [hr] at hi hst
      simp only at hst
      subst hst
      have hi2 : Stmt.selectById i ∈ db.log ++ [Stmt.selectById ID] := by
        cases res <;> simpa using hi
      rcases List.mem_append.mp hi2 with h | h
      · exact Or.inl h
      · right
        have hEq : i = ID := by simpa using h
        subst hEq
        exact ⟨rfl, strconv.ParseInt_range _ _ hp⟩
  · intro i hi
    cases hp : strconv.ParseInt r.bookId with
    | error e =>
      left
      simpa [controllers.DeleteBook, hp] using hi
    | ok ID =>
      have hlog := models.DeleteBook_log ID db
      unfold controllers.DeleteBook at hi
      rw [hp] at hi
      simp only at hi
      rcases hr : models.DeleteBook ID db with ⟨res, db1⟩
      rw [hr] at hi hlog
      simp only at hlog
      have hi2 : Stmt.selectById i ∈ db1.log := by
        cases res <;> simpa using hi
      have hi3 : Stmt.selectById i ∈ db.log ∨ i = ID := by
        rcases hlog with h | ⟨k, h⟩
        · rw [h] at hi2
          simpa using hi2
        · rw [h] at hi2
          simpa using hi2
      rcases hi3 with h | h
      · exact Or.inl h
      · right
        subst h
        exact ⟨rfl, strconv.ParseInt_range _ _ hp⟩
  · intro i hi
    unfold controllers.UpdateBook at hi
    cases hb : utils.ParseBody r Book.zero with
    | error e =>
      left
      simpa [hb] using hi
    | ok payload =>
      rw [hb] at hi
      simp only at hi
      cases hp : strconv.ParseInt r.bookId with
      | error e =>
        left
        simpa [hp] using hi
      | ok ID =>
        have hst := models.GetBookById_state ID db
        rw [hp] at hi
        simp only at hi
        rcases hr : models.GetBookById ID db with ⟨res, db1⟩
        rw [hr] at hi hst
        simp only at hst
        subst hst
        have hi2 : Stmt.selectById i ∈ db.log ++ [Stmt.selectById ID] := by
          cases res with
          | error e => simpa using hi
          | ok cur =>
            simp only [config.GetDB_eq] at hi
            rcases hs : gorm.Save (controllers.mergeFields payload cur)
              (db.step (.selectById ID)) with ⟨sres, db2⟩
            rw [hs] at hi
            have hi3 : Stmt.selectById i ∈ db2.log := by
              cases sres <;> simpa using hi
            have := gorm.Save_log (controllers.mergeFields payload cur)
              (db.step (.selectById ID)) i (by rw [hs]; exact hi3)
            simpa using this
        rcases List.mem_append.mp hi2 with h | h
        · exact Or.inl h
        · right
          have hEq : i = ID := by simpa using h
          subst hEq
          exact ⟨rfl, strconv.ParseInt_range _ _ hp⟩
  · intro e h
    refine ⟨?_, ?_, ?_⟩
    · simp [controllers.GetBookById, h]
    · simp [controllers.DeleteBook, h]
    · unfold controllers.UpdateBook
      cases hb : utils.ParseBody r Book.zero <;> simp [h]

/-- C4, amended, at an example: the lookup the get-one handler logs for the
path `-5` is the lookup for `-5`. -/
theorem C4_entity_layer_gets_parsed_id_witness :
    Stmt.selectById (-5) ∈
      (controllers.GetBookById { bookId := "-5", Body := none } DB.empty).2.log ∧
    (Stmt.selectById (-5) ∈ DB.empty.log ∨
      (strconv.ParseInt "-5" = .ok (-5) ∧ -(2 : Int) ^ 63 ≤ -5 ∧ (-5 : Int) < (2 : Int) ^ 63)) :=
  ⟨by decide,
   (C4_entity_layer_gets_parsed_id { bookId := "-5", Body := none } DB.empty).1 (-5) (by decide)⟩

/-! ## Delete of an absent id -/

/-- C5. When no live row has the id, `models.DeleteBook` deletes nothing: the
rows and the counter are as before and only the lookup is sent; when the driver
executes that lookup the result is the error `book not found`; and the
`DeleteBook` handler answers 404 for a path string that parses to the id. -/
theorem C5_delete_absent_is_not_found (db : DB) (Id : Int)
    (habsent : ∀ b ∈ db.rows, live b = true → (b.ID : Int) ≠ Id) :
    (models.DeleteBook Id db).2 = db.step (.selectById Id) ∧
    (models.DeleteBook Id db).2.rows = db.rows ∧
    (models.DeleteBook Id db).2.nextId = db.nextId ∧
    (db.fails = false → (models.DeleteBook Id db).1 = .error (.new "book not found")) ∧
    (∃ e, (models.DeleteBook Id db).1 = .error e) ∧
    (∀ r : Request, strconv.ParseInt r.bookId = .ok Id →
      (controllers.DeleteBook r db).1.status = 404 ∧
      (controllers.DeleteBook r db).2.rows = db.rows) := by
  have hnone : db.rows.find? (fun r => live r && ((r.ID : Int) == Id)) = none := by
    rw [List.find?_eq_none]
    intro x hx hp
    simp at hp
    exact habsent x hx hp.1 hp.2
  have hres := gorm.First_result Id db
  have hst := gorm.First_state Id db
  rw [hnone] at hres
  have key : (models.DeleteBook Id db).2 = db.step (.selectById Id) ∧
      (db.fails = false → (models.DeleteBook Id db).1 = .error (.new "book not found")) ∧
      (∃ e, (models.DeleteBook Id db).1 = .error e) := by
    unfold models.DeleteBook
    rcases hr : gorm.First Id db with ⟨res, db1⟩
    rw [hr] at hres hst
    simp only at hres hst
    subst hst
    by_cases hf : db.fails = true
    · simp [hf] at hres
      subst hres
      simp [hf]
    · simp [hf] at hres
      subst hres
      simp
  obtain ⟨k1, k2, k3⟩ := key
  refine ⟨k1, by rw [k1]; rfl, by rw [k1]; rfl, k2, k3, ?_⟩
  intro r hp
  obtain ⟨e, he⟩ := k3
  unfold controllers.DeleteBook
  rw [hp]
  simp only
  rcases hr : models.DeleteBook Id db with ⟨res, db1⟩
  rw [hr] at he k1
  simp only at he k1
  subst he k1
  simp [http.Error]

/-- C5 at an example: deleting id 2 from the table that holds book 1 only. -/
theorem C5_delete_absent_is_not_found_witness :
    (∀ b ∈ Example.db1.rows, live b = true → (b.ID : Int) ≠ 2) ∧
    (models.DeleteBook 2 Example.db1).1 = .error (.new "book not found") ∧
    (models.DeleteBook 2 Example.db1).2.rows = Example.db1.rows ∧
    (controllers.DeleteBook { bookId := "2", Body := none } Example.db1).1.status = 404 :=
  have h := C5_delete_absent_is_not_found Example.db1 2 (by decide)
  ⟨by decide, h.2.2.2.1 (by decide), h.2.1, (h.2.2.2.2.2 _ (by decide)).1⟩

/-! ## Create, then fetch -/

/-- The entity create in terms of `gorm.Create`. -/
theorem models.CreateBook_eq (b : Book) (db : DB) :
    models.Book.CreateBook b db =
      ((match (gorm.Create b db).1 with
        | .ok c => some c
        | .error _ => none), (gorm.Create b db).2) := by
  unfold models.Book.CreateBook
  rcases gorm.Create b db with ⟨res, db1⟩
  cases res <;> rfl

/-- A successful entity create is a successful `gorm.Create`. -/
theorem models.CreateBook_some (b c : Book) (db : DB)
    (h : (models.Book.CreateBook b db).1 = some c) : (gorm.Create b db).1 = .ok c := by
  rw [models.CreateBook_eq] at h
  simp only at h
  cases hr : (gorm.Create b db).1 with
  | ok c1 => rw [hr] at h; simp at h; rw [h]
  | error e => rw [hr] at h; simp at h

/-- The empty database is well formed. -/
theorem DB.WF_empty : DB.empty.WF := by decide

/-- The operation `gorm.Create` keeps the table well formed. -/
theorem gorm.Create_WF (b : Book) (db : DB) (h : db.WF) : (gorm.Create b db).2.WF := by
  obtain ⟨hn, hb, hd⟩ := h
  have hc := gorm.Create_spec b db
  cases hr : (gorm.Create b db).1 with
  | error e =>
    obtain ⟨h1, h2⟩ := hc.2 e hr
    exact ⟨by rw [h2]; exact hn, by rw [h1, h2]; exact hb, by rw [h1]; exact hd⟩
  | ok s =>
    obtain ⟨_, _, _, _, h5, h6, h7, h8⟩ := hc.1 s hr
    have hpos : 0 < s.ID := by
      rw [h5]
      by_cases h0 : b.ID = 0
      · simp [h0]; exact hn
      · simp [h0]; omega
    refine ⟨?_, ?_, ?_⟩
    · rw [h8]; omega
    · rw [h7, h8]
      intro x hx
      rcases List.mem_append.mp hx with hx | hx
      · have := hb x hx
        exact ⟨this.1, by omega⟩
      · have hxs : x = s := by simpa using hx
        subst hxs
        exact ⟨hpos, by omega⟩
    · rw [h7, List.map_append, List.nodup_append]
      refine ⟨hd, by simp, ?_⟩
      intro a ha hs
      simp only [List.map_cons, List.map_nil, List.mem_singleton] at hs
      obtain ⟨x, hx, hxa⟩ := List.mem_map.mp ha
      exact h6 x hx (by rw [hxa, hs])

/-- A map that keeps the keys keeps the table well formed. -/
theorem DB.WF_of_map (db db1 : DB) (f : Book → Book) (hf : ∀ r, (f r).ID = r.ID)
    (hrows : db1.rows = db.rows.map f) (hnext : db1.nextId = db.nextId) (h : db.WF) :
    db1.WF := by
  obtain ⟨hn, hb, hd⟩ := h
  refine ⟨by rw [hnext]; exact hn, ?_, ?_⟩
  · rw [hrows, hnext]
    intro x hx
    obtain ⟨y, hy, hyx⟩ := List.mem_map.mp hx
    rw [← hyx, hf y]
    exact hb y hy
  · rw [hrows, List.map_map]
    have : (Book.ID ∘ f) = Book.ID := by
      funext r
      exact hf r
    rw [this]
    exact hd

/-- A lookup that the map does not disturb finds the same row. -/
theorem List.find?_map_of_agree (l : List Book) (f : Book → Book) (p : Book → Bool)
    (h : ∀ x ∈ l, p (f x) = p x ∧ (p x = true → f x = x)) :
    (l.map f).find? p = l.find? p := by
  induction l with
  | nil => rfl
  | cons a t ih =>
    have ha := h a (List.mem_cons_self a t)
    have ht : ∀ x ∈ t, p (f x) = p x ∧ (p x = true → f x = x) :=
      fun x hx => h x (List.mem_cons_of_mem a hx)
    simp only [List.map_cons, List.find?_cons, ha.1]
    cases hp : p a with
    | true => simp [ha.2 hp]
    | false => simpa using ih ht

/-- What a successful `models.DeleteBook` did: the record returned is a live
row with the id, the lookup and the delete were executed, and the rows of
the default scope with the key of that record got a `DeletedAt` time. -/
theorem models.DeleteBook_ok (Id : Int) (db db2 : DB) (b : Book)
    (h : models.DeleteBook Id db = (.ok b, db2)) :
    b ∈ db.rows ∧ live b = true ∧ (b.ID : Int) = Id ∧ db.fails = false ∧
    db2.rows = db.rows.map (fun r =>
      if live r && (b.ID == 0 || r.ID == b.ID) then { r with DeletedAt := some db.clock }
      else r) ∧
    db2.nextId = db.nextId ∧
    db2.log = db.log ++ [.selectById Id, .softDelete b.ID] := by
  have hst := gorm.First_state Id db
  have hok := gorm.First_ok Id db
  unfold models.DeleteBook at h
  rcases hr : gorm.First Id db with ⟨res, db1⟩
  rw [hr] at h hst hok
  simp only at h hst hok
  subst hst
  cases res with
  | error e => by_cases he : e = .ErrRecordNotFound <;> simp [he] at h
  | ok c =>
    simp only at h
    unfold gorm.Delete at h
    by_cases hf : (db.step (.selectById Id)).fails = true
    · simp [hf] at h
    · simp only [hf, Bool.false_eq_true, if_false, Prod.mk.injEq, Except.ok.injEq] at h
      obtain ⟨hcb, hdb⟩ := h
      subst hcb
      obtain ⟨h1, h2, h3, h4⟩ := hok c rfl
      subst hdb
      exact ⟨h1, h2, h3, h4, rfl, rfl, by simp⟩

/-- The operation `models.DeleteBook` keeps the table well formed. -/
theorem models.DeleteBook_WF (Id : Int) (db : DB) (h : db.WF) :
    (models.DeleteBook Id db).2.WF := by
  rcases hr : models.DeleteBook Id db with ⟨res, db2⟩
  cases res with
  | ok b =>
    obtain ⟨_, _, _, _, h5, h6, _⟩ := models.DeleteBook_ok Id db db2 b hr
    refine DB.WF_of_map db db2 _ ?_ h5 h6 h
    intro r
    by_cases hc : (live r && (b.ID == 0 || r.ID == b.ID)) = true
    · rw [if_pos hc]
    · rw [if_neg hc]
  | error e =>
    have hlog : db2.rows = db.rows ∧ db2.nextId = db.nextId := by
      have hst := gorm.First_state Id db
      unfold models.DeleteBook at hr
      rcases hf : gorm.First Id db with ⟨res1, db1⟩
      rw [hf] at hr hst
      simp only at hr hst
      subst hst
      cases res1 with
      | error e1 =>
        by_cases he : e1 = .ErrRecordNotFound
        · simp [he] at hr
          rw [← hr.2]
          exact ⟨rfl, rfl⟩
        · simp [he] at hr
          rw [← hr.2]
          exact ⟨rfl, rfl⟩
      | ok c =>
        simp only at hr
        unfold gorm.Delete at hr
        by_cases hfl : (db.step (.selectById Id)).fails = true
        · simp [hfl] at hr
          rw [← hr.2]
          exact ⟨rfl, rfl⟩
        · simp [hfl] at hr
    obtain ⟨hn, hb, hd⟩ := h
    exact ⟨by rw [hlog.2]; exact hn, by rw [hlog.1, hlog.2]; exact hb, by rw [hlog.1]; exact hd⟩

/-! ## Delete, then fetch -/

/-- C7. After a successful `models.DeleteBook` of an id on a well-formed
table, the lookup of the same id on the resulting database finds no row: it
fails, with `book not found` when the driver executes it, and the get-one
handler answers 404; the lookup of any other id gives, under the same driver
behaviour, what it gave before the delete. -/
theorem C7_delete_then_get (db db1 : DB) (Id : Int) (b : Book) (hwf : db.WF)
    (hdel : models.DeleteBook Id db = (.ok b, db1)) :
    db1.rows.find? (fun r => live r && ((r.ID : Int) == Id)) = none ∧
    (db1.fails = false → (models.GetBookById Id db1).1 = .error (.new "book not found")) ∧
    (∃ e, (models.GetBookById Id db1).1 = .error e) ∧
    (∀ r : Request, strconv.ParseInt r.bookId = .ok Id →
      (controllers.GetBookById r db1).1.status = 404) ∧
    (∀ (Id' : Int) (f : List Bool), Id' ≠ Id →
      (models.GetBookById Id' { db1 with faults := f }).1 =
        (models.GetBookById Id' { db with faults := f }).1) := by
  obtain ⟨hmem, hlive, hid, _, hrows, _, _⟩ := models.DeleteBook_ok Id db db1 b hdel
  have hb0 : b.ID ≠ 0 := by
    have := (hwf.2.1 b hmem).1
    omega
  have hnone : db1.rows.find? (fun r => live r && ((r.ID : Int) == Id)) = none := by
    rw [List.find?_eq_none]
    intro x hx hp
    rw [hrows] at hx
    obtain ⟨y, hy, hyx⟩ := List.mem_map.mp hx
    simp only [Bool.and_eq_true, beq_iff_eq] at hp
    by_cases hc : (live y && (b.ID == 0 || y.ID == b.ID)) = true
    · rw [if_pos hc] at hyx
      rw [← hyx] at hp
      simp [live] at hp
    · rw [if_neg hc] at hyx
      subst hyx
      apply hc
      have hxy : y.ID = b.ID := by
        have := hp.2
        rw [← hid] at this
        exact_mod_cast this
      simp [hp.1, hxy]
  have herr : (models.GetBookById Id db1).1 =
      if db1.fails then .error .driver else .error (.new "book not found") := by
    rw [models.GetBookById_result, gorm.First_result, hnone]
    by_cases hf : db1.fails = true <;> simp [hf]
  refine ⟨hnone, ?_, ?_, ?_, ?_⟩
  · intro hf
    rw [herr, hf]
    simp
  · by_cases hf : db1.fails = true
    · exact ⟨_, by rw [herr, hf]; rfl⟩
    · exact ⟨_, by rw [herr]; simp [hf]; rfl⟩
  · intro r hp
    have hex : ∃ e, (models.GetBookById Id db1).1 = .error e := by
      by_cases hf : db1.fails = true
      · exact ⟨_, by rw [herr, hf]; rfl⟩
      · exact ⟨_, by rw [herr]; simp [hf]; rfl⟩
    obtain ⟨e, he⟩ := hex
    unfold controllers.GetBookById
    rw [hp]
    simp only
    rcases hr : models.GetBookById Id db1 with ⟨res, db2⟩
    rw [hr] at he
    simp only at he
    subst he
    rfl
  · intro Id' f hne
    rw [models.GetBookById_result, models.GetBookById_result, gorm.First_result,
      gorm.First_result]
    have hfind : db1.rows.find? (fun r => live r && ((r.ID : Int) == Id')) =
        db.rows.find? (fun r => live r && ((r.ID : Int) == Id')) := by
      rw [hrows]
      apply List.find?_map_of_agree
      intro x _
      by_cases hc : (live x && (b.ID == 0 || x.ID == b.ID)) = true
      · rw [if_pos hc]
        simp only [Bool.and_eq_true, Bool.or_eq_true, beq_iff_eq] at hc
        have hxb : x.ID = b.ID := by
          rcases hc.2 with h | h
          · exact absurd h hb0
          · exact h
        have hxid : ¬ ((x.ID : Int) = Id') := by
          rw [hxb, hid]
          exact fun h => hne h.symm
        have hbeq : ((x.ID : Int) == Id') = false := by simpa using hxid
        simp only [hbeq, Bool.and_false, Bool.false_eq_true, false_implies, and_self]
      · rw [if_neg hc]
        simp
    have e1 : ({ db1 with faults := f } : DB).rows = db1.rows := rfl
    have e2 : ({ db with faults := f } : DB).rows = db.rows := rfl
    have e3 : ({ db1 with faults := f } : DB).fails = ({ db with faults := f } : DB).fails := rfl
    rw [e1, e2, e3, hfind]

/-- C7 at an example: book 1 is deleted from a table of two books; it is no
longer found, and book 2 is found as before. -/
theorem C7_delete_then_get_witness :
    Example.db2.WF ∧
    models.DeleteBook 1 Example.db2 = (.ok Example.dune, (models.DeleteBook 1 Example.db2).2) ∧
    (models.GetBookById 1 (models.DeleteBook 1 Example.db2).2).1 =
      .error (.new "book not found") ∧
    (controllers.GetBookById { bookId := "1", Body := none }
      (models.DeleteBook 1 Example.db2).2).1.status = 404 ∧
    (models.GetBookById 2 { (models.DeleteBook 1 Example.db2).2 with faults := [] }).1 =
      (models.GetBookById 2 { Example.db2 with faults := [] }).1 :=
  have h := C7_delete_then_get Example.db2 (models.DeleteBook 1 Example.db2).2 1 Example.dune
    (by decide) (by decide)
  ⟨by decide, by decide, h.2.1 (by decide), h.2.2.2.1 _ (by decide),
   h.2.2.2.2 2 [] (by decide)⟩

/-! ## Update keeps the identifier -/

/-- The operation `gorm.Save` of a record whose key is the key of a live row: one UPDATE is
sent and, unless the driver fails, that row becomes the record. -/
theorem gorm.Save_hit (b : Book) (db : DB) (h0 : b.ID ≠ 0)
    (hrow : ∃ r ∈ db.rows, live r = true ∧ r.ID = b.ID) :
    gorm.Save b db =
      if db.fails then (.error .driver, db.step (.update { b with UpdatedAt := db.clock }))
      else (.ok { b with UpdatedAt := db.clock },
        { db.step (.update { b with UpdatedAt := db.clock }) with
          rows := db.rows.map (fun r =>
            if live r && r.ID == b.ID then { b with UpdatedAt := db.clock } else r) }) := by
  unfold gorm.Save
  simp only [h0, if_false]
  by_cases hf : db.fails = true
  · simp [hf]
  · simp only [hf]
    have ha : (db.rows.any fun r => live r && r.ID == b.ID) = true := by
      obtain ⟨r, hr, hl, hid⟩ := hrow
      exact List.any_eq_true.mpr ⟨r, hr, by simp [hl, hid]⟩
    simp only [ha, if_true, Bool.false_eq_true, if_false]

/-- C9. The create handler answers 400 exactly when `ParseBody` fails, and
then the database value is untouched (no statement is sent); it answers 500
exactly when the body parses and the insert fails, and then no row is added;
otherwise it answers 201 with the record the insert returned. -/
theorem C9_create_status (r : Request) (db : DB) :
    ((controllers.CreateBook r db).1.status = 400 ↔
      ∃ e, utils.ParseBody r Book.zero = .error e) ∧
    (∀ e, utils.ParseBody r Book.zero = .error e →
      controllers.CreateBook r db = (http.Error "Invalid request payload" 400, db)) ∧
    ((controllers.CreateBook r db).1.status = 500 ↔
      ∃ book, utils.ParseBody r Book.zero = .ok book ∧
        (models.Book.CreateBook book db).1 = none) ∧
    (∀ book, utils.ParseBody r Book.zero = .ok book →
      (models.Book.CreateBook book db).1 = none →
      (controllers.CreateBook r db).2.rows = db.rows) ∧
    (∀ book created, utils.ParseBody r Book.zero = .ok book →
      (models.Book.CreateBook book db).1 = some created →
      controllers.CreateBook r db =
        ({ status := 201, payload := .book created }, (models.Book.CreateBook book db).2)) := by
  cases hb : utils.ParseBody r Book.zero with
  | error e =>
    refine ⟨?_, ?_, ?_, ?_, ?_⟩
    · simp [controllers.CreateBook, hb, http.Error]
    · intro e1 _
      simp [controllers.CreateBook, hb]
    · simp [controllers.CreateBook, hb, http.Error]
    · intro book h
      simp at h
    · intro book created h
      simp at h
  | ok book =>
    have hunf : controllers.CreateBook r db =
        match models.Book.CreateBook book db with
        | (none, db1) => (http.Error "Failed to create book" 500, db1)
        | (some createdBook, db1) => ({ status := 201, payload := .book createdBook }, db1) := by
      unfold controllers.CreateBook
      rw [hb]
    rw [hunf]
    rcases hr : models.Book.CreateBook book db with ⟨res, db1⟩
    cases res with
    | none =>
      refine ⟨?_, ?_, ?_, ?_, ?_⟩
      · simp [http.Error]
      · intro e1 h
        simp at h
      · simp [http.Error, hr]
      · intro book1 h _
        simp only [Except.ok.injEq] at h
        subst h
        have hcr := models.CreateBook_eq book db
        rw [hr] at hcr
        obtain ⟨h1, h2⟩ := Prod.mk.inj hcr
        cases hg : (gorm.Create book db).1 with
        | ok c => rw [hg] at h1; simp at h1
        | error e =>
          have := ((gorm.Create_spec book db).2 e hg).1
          simp only
          rw [h2]
          exact this
      · intro book1 created h hc
        simp only [Except.ok.injEq] at h
        subst h
        rw [hr] at hc
        simp at hc
    | some created =>
      refine ⟨?_, ?_, ?_, ?_, ?_⟩
      · simp
      · intro e1 h
        simp at h
      · simp [hr]
      · intro book1 h hc
        simp only [Except.ok.injEq] at h
        subst h
        rw [hr] at hc
        simp at hc
      · intro book1 created1 h hc
        simp only [Except.ok.injEq] at h
        subst h
        rw [hr] at hc ⊢
        simp only [Option.some.injEq] at hc
        subst hc
        rfl

/-- C9 at an example: the body of the example of the specification is posted
to the empty database. -/
theorem C9_create_status_witness :
    utils.ParseBody Example.postDune Book.zero = .ok { Example.dune with ID := 0, CreatedAt := 0, UpdatedAt := 0 } ∧
    (models.Book.CreateBook { Example.dune with ID := 0, CreatedAt := 0, UpdatedAt := 0 } DB.empty).1 =
      some { Example.dune with CreatedAt := 1, UpdatedAt := 1 } ∧
    controllers.CreateBook Example.postDune DB.empty =
      ({ status := 201, payload := .book { Example.dune with CreatedAt := 1, UpdatedAt := 1 } },
        (models.Book.CreateBook { Example.dune with ID := 0, CreatedAt := 0, UpdatedAt := 0 }
          DB.empty).2) :=
  ⟨by decide, by decide,
   (C9_create_status Example.postDune DB.empty).2.2.2.2 _ _ (by decide) (by decide)⟩

/-! ## Who chooses the identifier on create -/

/-- A member whose key does not fold to `id` leaves the identifier alone. -/
theorem json.setMember_ID (k : String) (v : json.Value) (b c : Book)
    (hk : json.fold k ≠ "id") (h : json.setMember k v b = .ok c) : c.ID = b.ID := by
  unfold json.setMember at h
  simp only at h
  split_ifs at h
  · cases hs : json.setString v b.Name with
    | error e => rw [hs] at h; simp [Except.map] at h
    | ok x => rw [hs] at h; simp [Except.map] at h; rw [← h]
  · cases hs : json.setString v b.Author with
    | error e => rw [hs] at h; simp [Except.map] at h
    | ok x => rw [hs] at h; simp [Except.map] at h; rw [← h]
  · cases hs : json.setString v b.Publication with
    | error e => rw [hs] at h; simp [Except.map] at h
    | ok x => rw [hs] at h; simp [Except.map] at h; rw [← h]
  · cases hs : json.setTime v b.CreatedAt with
    | error e => rw [hs] at h; simp [Except.map] at h
    | ok x => rw [hs] at h; simp [Except.map] at h; rw [← h]
  · cases hs : json.setTime v b.UpdatedAt with
    | error e => rw [hs] at h; simp [Except.map] at h
    | ok x => rw [hs] at h; simp [Except.map] at h; rw [← h]
  · cases hs : json.setTimePtr v with
    | error e => rw [hs] at h; simp [Except.map] at h
    | ok x => rw [hs] at h; simp [Except.map] at h; rw [← h]
  · simp only [Except.ok.injEq] at h
    rw [← h]

/-- An object without a member for `id` leaves the identifier alone. -/
theorem json.setMembers_ID (ms : List (String × json.Value)) (b c : Book)
    (hk : ∀ kv ∈ ms, json.fold kv.1 ≠ "id") (h : json.setMembers ms b = .ok c) :
    c.ID = b.ID := by
  induction ms generalizing b with
  | nil =>
    simp only [json.setMembers, Except.ok.injEq] at h
    rw [← h]
  | cons kv rest ih =>
    obtain ⟨k, v⟩ := kv
    simp only [json.setMembers] at h
    cases hs : json.setMember k v b with
    | error e => rw [hs] at h; simp at h
    | ok b1 =>
      rw [hs] at h
      simp only at h
      have h1 := json.setMember_ID k v b b1 (hk (k, v) (List.mem_cons_self _ _)) hs
      have h2 := ih b1 (fun kv hkv => hk kv (List.mem_cons_of_mem _ hkv)) h
      rw [h2, h1]

/-- The result of `gorm.Create`, case by case. -/
theorem gorm.Create_cases (b : Book) (db : DB) :
    (db.fails = true ∧ (gorm.Create b db).1 = .error .driver) ∨
    (db.fails = false ∧
      (db.rows.any (fun r => r.ID == if b.ID = 0 then db.nextId else b.ID)) = true ∧
      (gorm.Create b db).1 = .error .duplicateKey) ∨
    (db.fails = false ∧
      (db.rows.any (fun r => r.ID == if b.ID = 0 then db.nextId else b.ID)) = false ∧
      ∃ c, (gorm.Create b db).1 = .ok c ∧ c.ID = (if b.ID = 0 then db.nextId else b.ID)) := by
  unfold gorm.Create
  by_cases hf : db.fails = true
  · left
    simp [hf]
  · right
    have hf2 : db.fails = false := by simpa using hf
    by_cases hd : (db.rows.any fun r => r.ID == if b.ID = 0 then db.nextId else b.ID) = true
    · left
      refine ⟨hf2, hd, ?_⟩
      simp only [hf2, hd]
      simp
    · right
      have hd2 : (db.rows.any fun r => r.ID == if b.ID = 0 then db.nextId else b.ID) = false := by
        simpa using hd
      refine ⟨hf2, hd2, ?_⟩
      simp only [hf2, hd2]
      simp

/-- The log after `gorm.Create`: the INSERT of the record with its timestamps
filled, the key as it came. -/
theorem gorm.Create_insert_log (b : Book) (db : DB) :
    (gorm.Create b db).2.log = db.log ++ [.insert
      { b with CreatedAt := if b.CreatedAt = 0 then db.clock else b.CreatedAt,
               UpdatedAt := if b.UpdatedAt = 0 then db.clock else b.UpdatedAt }] := by
  unfold gorm.Create
  by_cases hf : db.fails = true
  · simp [hf]
  · by_cases hd : (db.rows.any fun r => r.ID == if b.ID = 0 then db.nextId else b.ID) = true
    · simp only [hf, hd]
      simp
    · simp only [hf, hd]
      simp

/-- The create handler on a body that parses, in terms of `gorm.Create`. -/
theorem controllers.CreateBook_of_parsed (r : Request) (db : DB) (book : Book)
    (hb : utils.ParseBody r Book.zero = .ok book) :
    controllers.CreateBook r db =
      ((match (gorm.Create book db).1 with
        | .ok c => { status := 201, payload := .book c }
        | .error _ => http.Error "Failed to create book" 500), (gorm.Create book db).2) := by
  unfold controllers.CreateBook
  rw [hb]
  simp only
  rw [models.CreateBook_eq]
  cases (gorm.Create book db).1 <;> rfl

/-- A database value with the same rows and counter is as well formed. -/
theorem DB.WF_of_same (db db1 : DB) (hrows : db1.rows = db.rows)
    (hnext : db1.nextId = db.nextId) (h : db.WF) : db1.WF := by
  obtain ⟨hn, hb, hd⟩ := h
  exact ⟨by rw [hnext]; exact hn, by rw [hrows, hnext]; exact hb, by rw [hrows]; exact hd⟩

/-- The operation `gorm.Save` keeps the table well formed. -/
theorem gorm.Save_WF (b : Book) (db : DB) (h : db.WF) : (gorm.Save b db).2.WF := by
  unfold gorm.Save
  by_cases h0 : b.ID = 0
  · simp only [h0, if_true]
    exact gorm.Create_WF b db h
  · simp only [h0, if_false]
    by_cases hf : db.fails = true
    · simp only [hf, if_true]
      exact DB.WF_of_same db _ rfl rfl h
    · simp only [hf]
      by_cases ha : (db.rows.any fun r => live r && r.ID == b.ID) = true
      · simp only [ha, if_true, Bool.false_eq_true, if_false]
        refine DB.WF_of_map db _ (fun r => if live r && r.ID == b.ID
          then { b with UpdatedAt := db.clock } else r) ?_ rfl rfl h
        intro r
        show (if (live r && r.ID == b.ID) = true
          then ({ b with UpdatedAt := db.clock } : Book) else r).ID = r.ID
        by_cases hc : (live r && r.ID == b.ID) = true
        · rw [if_pos hc]
          simp only [Bool.and_eq_true, beq_iff_eq] at hc
          exact hc.2.symm
        · rw [if_neg hc]
      · simp only [ha, Bool.false_eq_true, if_false]
        have hstep : ((db.step (.update { b with UpdatedAt := db.clock })).step
            (.selectByKey b.ID)).WF := DB.WF_of_same db _ rfl rfl h
        by_cases hf1 : (db.step (.update { b with UpdatedAt := db.clock })).fails = true
        · simp only [hf1, if_true]
          exact hstep
        · simp only [hf1, Bool.false_eq_true, if_false]
          cases (db.step (.update { b with UpdatedAt := db.clock })).rows.find?
              (fun r => live r && r.ID == b.ID) with
          | some r => exact hstep
          | none => exact gorm.Create_WF _ _ hstep

/-- Every handler takes a well-formed table to a well-formed table. -/
theorem controllers.handlers_WF (r : Request) (db : DB) (h : db.WF) :
    (controllers.GetBook r db).2.WF ∧ (controllers.GetBookById r db).2.WF ∧
    (controllers.CreateBook r db).2.WF ∧ (controllers.DeleteBook r db).2.WF ∧
    (controllers.UpdateBook r db).2.WF := by
  have hget : ∀ ID, (models.GetBookById ID db).2.WF := by
    intro ID
    rw [models.GetBookById_state]
    exact DB.WF_of_same db _ rfl rfl h
  refine ⟨?_, ?_, ?_, ?_, ?_⟩
  · unfold controllers.GetBook models.GetAllBooks gorm.Find
    by_cases hf : db.fails = true
    · simp only [hf, if_true]
      exact DB.WF_of_same db _ rfl rfl h
    · simp only [hf, Bool.false_eq_true, if_false]
      exact DB.WF_of_same db _ rfl rfl h
  · unfold controllers.GetBookById
    cases hp : strconv.ParseInt r.bookId with
    | error e => exact h
    | ok ID =>
      have := hget ID
      simp only
      rcases hr : models.GetBookById ID db with ⟨res, db1⟩
      rw [hr] at this
      cases res <;> exact this
  · cases hb : utils.ParseBody r Book.zero with
    | error e =>
      unfold controllers.CreateBook
      rw [hb]
      exact h
    | ok book =>
      rw [controllers.CreateBook_of_parsed r db book hb]
      exact gorm.Create_WF book db h
  · unfold controllers.DeleteBook
    cases hp : strconv.ParseInt r.bookId with
    | error e => exact h
    | ok ID =>
      have := models.DeleteBook_WF ID db h
      simp only
      rcases hr : models.DeleteBook ID db with ⟨res, db1⟩
      rw [hr] at this
      cases res <;> exact this
  · unfold controllers.UpdateBook
    cases hb : utils.ParseBody r Book.zero with
    | error e => exact h
    | ok payload =>
      simp only
      cases hp : strconv.ParseInt r.bookId with
      | error e => exact h
      | ok ID =>
        have hg := hget ID
        simp only
        rcases hr : models.GetBookById ID db with ⟨res, db1⟩
        rw [hr] at hg
        cases res with
        | error e => exact hg
        | ok cur =>
          simp only [config.GetDB_eq]
          have hs := gorm.Save_WF (controllers.mergeFields payload cur) db1 hg
          rcases hsv : gorm.Save (controllers.mergeFields payload cur) db1 with ⟨sres, db2⟩
          rw [hsv] at hs
          cases sres <;> exact hs
